import Mathlib

/-!
Verification of the sync orchestration core of `lobe-chat`
(`src/unnamed/part_000`: class `DataSync`; `src/src/services/global.ts`:
class `GlobalService`).

The TypeScript code is shallowly embedded: each method is translated into
an executable Lean definition over explicit state; the opaque collaborators
(the local Dexie-style store, the Y.Doc replicated document, the WebRTC
provider) are modelled at the granularity the orchestration code observes
them (per-table CRUD on association lists, named replicated maps,
create/destroy lifecycle events).
-/

namespace LobeSync

/-! ## Bootstrap batching (`DataSync.loadDataFromDBtoYjs`, part_000 lines 227-255)

`loadDataFromDBtoYjs` reads the whole table (`table.toArray()`), computes
`totalBatches = Math.ceil(items.length / batchSize)` with `batchSize = 50`,
and for each batch index `i` takes `items.slice(i*50, i*50+50)` and runs one
document transaction that does `yItemMap.set(item.id, item)` for every item
of the batch.  Records are `(id, value)` pairs; the replicated map is an
association list where `set` overwrites in place when the key is present and
appends otherwise (Y.Map.set semantics: size grows only on fresh keys). -/

/-- Batch size constant from part_000 line 233 (`const batchSize = 50`). -/
def batchSize : Nat := 50

/-- `Math.ceil(items.length / batchSize)` (part_000 line 236), as ceiling
division on naturals. -/
def totalBatches (n : Nat) : Nat := (n + batchSize - 1) / batchSize

/-- The list of batches: for `i < totalBatches`, `items.slice(i*50, i*50+50)`
(part_000 lines 238-244).  `slice(start, end)` is `drop start` then
`take (end - start)`. -/
def batches {α : Type} (items : List α) : List (List α) :=
  (List.range (totalBatches items.length)).map
    (fun i => (items.drop (i * batchSize)).take batchSize)

/-- `Y.Map.set(id, v)` on an association-list model: overwrite in place when
the key exists, append otherwise. -/
def ymapSet {K V : Type} [DecidableEq K] (m : List (K × V)) (id : K) (v : V) :
    List (K × V) :=
  if (m.map Prod.fst).contains id then
    m.map (fun e => if e.1 = id then (id, v) else e)
  else m ++ [(id, v)]

/-- One document transaction of the bootstrap loop: set every record of the
batch into the table's replicated map (part_000 lines 247-251). -/
def applyBatch {K V : Type} [DecidableEq K] (m : List (K × V))
    (b : List (K × V)) : List (K × V) :=
  b.foldl (fun m it => ymapSet m it.1 it.2) m

/-- `loadDataFromDBtoYjs` (part_000 lines 227-255): run the batched
transactions sequentially, in batch order, over the replicated map `m`. -/
def loadDataFromDBtoYjs {K V : Type} [DecidableEq K] (items : List (K × V))
    (m : List (K × V)) : List (K × V) :=
  (batches items).foldl applyBatch m

/-! ## Change observation (`DataSync.observeYMapChange`, part_000 lines 171-225)

The observer callback receives a Y.Map change event carrying the originating
transaction's `local` flag and the set of changed `(id, action)` pairs with
action one of add, update, delete.  A local event is discarded at once
(line 186, before any timer or status operation).  Otherwise the callback
clears the settle timer, emits status `syncing`, applies every changed key
to the local Dexie table (`get`/`add`/`update`/`delete`), emits the
throttled table sync event, and arms a fresh 2000 ms settle timer that
emits `synced`. -/

/-- Y.Map change action kinds. -/
inductive YAction : Type
  | add
  | update
  | delete
  deriving DecidableEq, Repr

/-- One Y.Map change event: the originating transaction's `local` flag
(`event.transaction.local`) and the changed `(id, action)` pairs
(`event.keys`). -/
structure YMapEvent (K : Type) where
  txLocal : Bool
  keys : List (K × YAction)
  deriving DecidableEq

/-- The sync status values emitted through `onSyncStatusChange`. -/
inductive SyncStatus : Type
  | ready
  | syncing
  | synced
  deriving DecidableEq, Repr

/-- A write performed against the local Dexie table. -/
inductive TableWrite (K V : Type) : Type
  | wAdd (id : K) (v : V)
  | wUpdate (id : K) (v : V)
  | wDelete (id : K)
  deriving DecidableEq

/-- Observable effects of one observer-callback run, in program order. -/
inductive ObsEffect (K V : Type) : Type
  | clearSettleTimer
  | statusChange (st : SyncStatus)
  | write (w : TableWrite K V)
  | emitSyncEvent
  | armSettleTimer (ms : Nat)
  deriving DecidableEq

/-- Settle-timer delay from part_000 line 223 (`setTimeout(..., 2000)`). -/
def settleMs : Nat := 2000

/-- `table.get(id)`: primary-key lookup in the local table, modelled as an
association list. -/
def dexieGet {K V : Type} [DecidableEq K] (t : List (K × V)) (id : K) :
    Option V :=
  t.lookup id

/-- `table.add(v, id)`: Dexie `add` rejects with a `ConstraintError` when the
key already exists, otherwise inserts. -/
def dexieAdd {K V : Type} [DecidableEq K] (t : List (K × V)) (id : K)
    (v : V) : Except String (List (K × V)) :=
  if (dexieGet t id).isSome then Except.error "ConstraintError"
  else Except.ok (t ++ [(id, v)])

/-- `table.update(id, v)`: updates the record when present, a no-op touching
zero rows when absent (Dexie resolves with 0, no insert and no error). -/
def dexieUpdate {K V : Type} [DecidableEq K] (t : List (K × V)) (id : K)
    (v : V) : List (K × V) :=
  t.map (fun e => if e.1 = id then (id, v) else e)

/-- `table.delete(id)`: removes the record when present; resolves without
error when the key is absent. -/
def dexieDelete {K V : Type} [DecidableEq K] (t : List (K × V)) (id : K) :
    List (K × V) :=
  t.filter (fun e => e.1 ≠ id)

/-- Application of one changed `(id, action)` pair to the local table
(part_000 lines 194-214).  `item` is `yItemMap.get(id)`; for `add` and
`update` the code looks the record up locally and inserts when absent,
updates otherwise; `delete` removes unconditionally.  When the replicated
map holds no value for the id, the code would hand `undefined` to the local
store; that write is modelled as a store error (the claims never reach this
branch). -/
def applyKeyChange {K V : Type} [DecidableEq K] (yMap t : List (K × V))
    (id : K) (a : YAction) :
    Except String (List (K × V) × TableWrite K V) :=
  match a with
  | YAction.delete => Except.ok (dexieDelete t id, TableWrite.wDelete id)
  | _ =>
    match dexieGet yMap id with
    | none => Except.error "DataError"
    | some item =>
      match dexieGet t id with
      | none => (dexieAdd t id item).map (fun t2 => (t2, TableWrite.wAdd id item))
      | some _ => Except.ok (dexieUpdate t id item, TableWrite.wUpdate id item)

/-- The whole observer callback (part_000 lines 184-224) on one event:
local events are discarded before any effect (line 186); otherwise the
callback clears the settle timer, emits `syncing`, applies every changed
key, emits the throttled sync event and arms the 2000 ms settle timer.
Returns the effect trace in program order and the resulting local table,
or the first per-key store error. -/
def handleEvent {K V : Type} [DecidableEq K] (yMap t : List (K × V))
    (ev : YMapEvent K) :
    Except String (List (ObsEffect K V) × List (K × V)) :=
  if ev.txLocal then Except.ok ([], t)
  else
    match ev.keys.foldlM
        (fun (acc : List (K × V) × List (ObsEffect K V)) (kv : K × YAction) =>
          (applyKeyChange yMap acc.1 kv.1 kv.2).map
            (fun r => (r.1, acc.2 ++ [ObsEffect.write r.2])))
        (t, []) with
    | Except.error e => Except.error e
    | Except.ok (t2, writes) =>
      Except.ok ([ObsEffect.clearSettleTimer,
        ObsEffect.statusChange SyncStatus.syncing] ++ writes ++
        [ObsEffect.emitSyncEvent, ObsEffect.armSettleTimer settleMs], t2)

/-! ## Settle-timer timeline (part_000 lines 182-224)

Timed semantics of the two-timer design for one table: remote events arrive
at the given instants (applications modelled as instantaneous, matching the
claim's accounting); each event first lets an already-due settle timer fire,
then cancels the pending timer, emits `syncing`, and re-arms the settle
timer for its own instant plus 2000 ms; after the last event the pending
timer fires.  The result is the emitted `(instant, status)` sequence. -/

def processEvents : List Nat → Option Nat → List (Nat × SyncStatus)
  | [], none => []
  | [], some ft => [(ft, SyncStatus.synced)]
  | t :: rest, none =>
    (t, SyncStatus.syncing) :: processEvents rest (some (t + settleMs))
  | t :: rest, some ft =>
    if ft ≤ t then
      (ft, SyncStatus.synced) :: (t, SyncStatus.syncing) ::
        processEvents rest (some (t + settleMs))
    else
      (t, SyncStatus.syncing) :: processEvents rest (some (t + settleMs))

/-! ## Bootstrap across tables (`DataSync.initSync`, part_000 lines 156-162)

`initSync` maps `loadDataFromDBtoYjs` over the five table keys and awaits
`Promise.all`.  Every mapped promise starts immediately and executes to
completion regardless of its siblings (`Promise.all` aggregates results but
cancels nothing); the aggregate settles to the first rejection when one
exists.  A table whose load rejects is modelled through a failure oracle:
its job performs no map writes (the table read rejects) and reports the
error; a non-failing job runs the full batched load on its table's
replicated map. -/

/-- The fixed table set (part_000 line 158). -/
def tableKeys : List String :=
  ["sessions", "sessionGroups", "topics", "messages", "plugins"]

/-- Pointwise update of the per-table replicated-map assignment. -/
def setTableMap {V : Type} (m : String → List (String × V)) (k : String)
    (ym : List (String × V)) : String → List (String × V) :=
  fun k2 => if k2 = k then ym else m k2

/-- One per-table bootstrap job (`loadDataFromDBtoYjs(tableKey)` as started
by `initSync`). -/
def loadTableJob {V : Type} (db : String → List (String × V))
    (fails : String → Bool) (k : String)
    (m : String → List (String × V)) :
    (String → List (String × V)) × Except String Unit :=
  if fails k then (m, Except.error k)
  else (setTableMap m k (loadDataFromDBtoYjs (db k) (m k)), Except.ok ())

/-- One `Promise.all` aggregation step: the job's effects always apply; the
aggregate result keeps the first error. -/
def initSyncStep {V : Type} (db : String → List (String × V))
    (fails : String → Bool)
    (acc : (String → List (String × V)) × Except String Unit) (k : String) :
    (String → List (String × V)) × Except String Unit :=
  let r := loadTableJob db fails k acc.1
  (r.1, match acc.2 with
    | Except.error e => Except.error e
    | Except.ok _ => r.2)

/-- `initSync` (part_000 lines 156-162). -/
def initSync {V : Type} (db : String → List (String × V))
    (fails : String → Bool) (m : String → List (String × V)) :
    (String → List (String × V)) × Except String Unit :=
  tableKeys.foldl (initSyncStep db fails) (m, Except.ok ())

/-! ## Teardown (`DataSync.cleanConnection`, part_000 lines 134-154)

`cleanConnection(provider)` is a no-op when its argument is null.
Otherwise it calls, in program order: `provider.awareness.destroy()`,
`provider.room?.disconnect()`, `provider.room?.destroy()`,
`provider.disconnect()`, `provider.destroy()`, `this._ydoc?.destroy()`.
It never assigns `this.provider` or `this._ydoc`, so the fields keep
pointing at the destroyed objects afterwards.  No call in the body can
reject in the model; the method raises no error. -/

/-- The release actions of a teardown, in program order. -/
inductive CleanAct : Type
  | awarenessDestroy
  | roomDisconnect
  | roomDestroy
  | providerDisconnect
  | providerDestroy
  | docDestroy
  deriving DecidableEq, Repr

/-- What teardown observes of a provider: whether the optional `room`
object is present. -/
structure ProviderShape : Type where
  hasRoom : Bool
  deriving DecidableEq

/-- The fields of the class that `cleanConnection` reads: `this.provider`
and whether `this._ydoc` is non-null. -/
structure ConnShape : Type where
  provider : Option ProviderShape
  ydocPresent : Bool
  deriving DecidableEq

/-- The action sequence of `cleanConnection(pr)` (part_000 lines 134-154). -/
def cleanConnectionActs (pr : Option ProviderShape) (ydocPresent : Bool) :
    List CleanAct :=
  match pr with
  | none => []
  | some p =>
    [CleanAct.awarenessDestroy] ++
      (if p.hasRoom then [CleanAct.roomDisconnect, CleanAct.roomDestroy]
        else []) ++
      [CleanAct.providerDisconnect, CleanAct.providerDestroy] ++
      (if ydocPresent then [CleanAct.docDestroy] else [])

/-- `this.cleanConnection(this.provider)` as invoked by the class: emits the
actions and leaves the fields untouched (the source never nulls them). -/
def cleanConnectionRun (s : ConnShape) : ConnShape × List CleanAct :=
  (s, cleanConnectionActs s.provider s.ydocPresent)

/-! ## Connection lifecycle (`DataSync` state, part_000 lines 20-154)

State machine over the class fields `_ydoc`, `provider`, `syncParams` and
the dev-only global slot `window.__ONLY_USE_FOR_CLEANUP_IN_DEV`.  Documents
and providers are identified by allocation order (`nextId`); `liveDocs` and
`liveProviders` track the instances constructed and not yet destroyed, and
`evLog` records teardowns and connections (with the parameters each
connection used).  The atomic steps are the state mutations of the source
between `await` points:
 - `setParams p`   — `this.syncParams = params` (line 36);
 - `cleanSlot`     — `cleanConnection(window.__ONLY_USE_FOR_CLEANUP_IN_DEV)`
                     (lines 41-43);
 - `cleanCur`      — `cleanConnection(this.provider)` (line 121);
 - `newDoc`        — `this._ydoc = new Doc()` (line 131);
 - `newProvider p` — `this.provider = new WebrtcProvider(...)` and, in a
                     development build, the global slot assignment
                     (lines 66-74). -/

/-- Lifecycle log events: a completed teardown of an existing provider, or
a connection constructed with the given parameters. -/
inductive LifeEv (P : Type) : Type
  | cleaned
  | connected (p : P)
  deriving DecidableEq, Repr

/-- The `DataSync` fields plus instance-liveness bookkeeping. -/
structure SyncState (P : Type) : Type where
  ydoc : Option Nat
  provider : Option Nat
  devSlot : Option Nat
  syncParams : Option P
  liveProviders : List Nat
  liveDocs : List Nat
  nextId : Nat
  evLog : List (LifeEv P)
  deriving DecidableEq

/-- The state of the freshly constructed `DataSync` instance (part_000
lines 21-24): null document, null provider, empty dev slot, unset params. -/
def initState {P : Type} : SyncState P :=
  SyncState.mk none none none none [] [] 0 []

/-- `cleanConnection(arg)` on the lifecycle state: when `arg` is a
provider, that provider and the current document are destroyed (removed
from the live sets) and a teardown is logged; the `provider` / `ydoc`
fields are NOT cleared (faithful to part_000 lines 134-154). -/
def cleanConn {P : Type} (arg : Option Nat) (s : SyncState P) : SyncState P :=
  match arg with
  | none => s
  | some pid =>
    { s with
      liveProviders := s.liveProviders.erase pid,
      liveDocs := match s.ydoc with
        | some d => s.liveDocs.erase d
        | none => s.liveDocs,
      evLog := s.evLog ++ [LifeEv.cleaned] }

/-- Atomic lifecycle steps (see the section comment). -/
inductive LifeStep (P : Type) : Type
  | setParams (p : P)
  | cleanSlot
  | cleanCur
  | newDoc
  | newProvider (p : P)
  deriving DecidableEq

/-- Effect of one atomic step; `dev` selects a development-style build
(`process.env.NODE_ENV === 'development'`, lines 72-74). -/
def lifeStep {P : Type} (dev : Bool) : LifeStep P → SyncState P → SyncState P
  | LifeStep.setParams p, s => { s with syncParams := some p }
  | LifeStep.cleanSlot, s => cleanConn s.devSlot s
  | LifeStep.cleanCur, s => cleanConn s.provider s
  | LifeStep.newDoc, s =>
    { s with
      ydoc := some s.nextId,
      liveDocs := s.nextId :: s.liveDocs,
      nextId := s.nextId + 1 }
  | LifeStep.newProvider p, s =>
    { s with
      provider := some s.nextId,
      liveProviders := s.nextId :: s.liveProviders,
      nextId := s.nextId + 1,
      devSlot := if dev then some s.nextId else s.devSlot,
      evLog := s.evLog ++ [LifeEv.connected p] }

def runLifeSteps {P : Type} (dev : Bool) :
    List (LifeStep P) → SyncState P → SyncState P
  | [], s => s
  | st :: rest, s => runLifeSteps dev rest (lifeStep dev st s)

/-- The steps of `startDataSync(params)` (part_000 lines 35-46): store the
params, clean the dev slot's provider when present, then `connect`
(fresh document at line 131, then fresh provider at line 66). -/
def startSteps {P : Type} (p : P) : List (LifeStep P) :=
  [LifeStep.setParams p, LifeStep.cleanSlot, LifeStep.newDoc,
    LifeStep.newProvider p]

/-- The steps of `reconnect(params)` (part_000 lines 120-124): clean the
current provider, then `connect`. -/
def reconSteps {P : Type} (p : P) : List (LifeStep P) :=
  [LifeStep.cleanCur, LifeStep.newDoc, LifeStep.newProvider p]

/-- The facade entry points as calls. -/
inductive SyncCall (P : Type) : Type
  | start (p : P)
  | recon (p : P)
  | manual
  deriving DecidableEq, Repr

/-- Steps a call performs from a given state.  `manualSync` (part_000
lines 115-118) reconnects with `this.syncParams`; when no `startDataSync`
ever stored params, `connect` destructures `undefined` and throws, which is
the `none` outcome. -/
def callSteps {P : Type} : SyncCall P → SyncState P → Option (List (LifeStep P))
  | SyncCall.start p, _ => some (startSteps p)
  | SyncCall.recon p, _ => some (reconSteps p)
  | SyncCall.manual, s => s.syncParams.map reconSteps

/-- Run a sequence of facade calls; `Except.error` is an escaped exception. -/
def runCalls {P : Type} (dev : Bool) :
    List (SyncCall P) → SyncState P → Except Unit (SyncState P)
  | [], s => Except.ok s
  | c :: cs, s =>
    match callSteps c s with
    | none => Except.error ()
    | some steps => runCalls dev cs (runLifeSteps dev steps s)

/-- Holds when `Q` holds after every atomic step of the list. -/
def runCheck {P : Type} (dev : Bool) (Q : SyncState P → Prop) :
    List (LifeStep P) → SyncState P → Prop
  | [], _ => True
  | st :: rest, s =>
    Q (lifeStep dev st s) ∧ runCheck dev Q rest (lifeStep dev st s)

/-- Holds when `Q` holds after every atomic step of every call of the
sequence (and no call throws). -/
def runCheckCalls {P : Type} (dev : Bool) (Q : SyncState P → Prop) :
    List (SyncCall P) → SyncState P → Prop
  | [], _ => True
  | c :: cs, s =>
    match callSteps c s with
    | none => False
    | some steps =>
      runCheck dev Q steps s ∧ runCheckCalls dev Q cs (runLifeSteps dev steps s)

/-- At most one live provider and at most one live document. -/
def AtMostOne {P : Type} (s : SyncState P) : Prop :=
  s.liveProviders.length ≤ 1 ∧ s.liveDocs.length ≤ 1

/-- Production-mode reachability invariant: the live provider, when one
exists, is the one the `provider` field holds; likewise for documents; the
dev slot stays empty. -/
def GoodState {P : Type} (s : SyncState P) : Prop :=
  (s.liveProviders = [] ∨
    ∃ pid, s.provider = some pid ∧ s.liveProviders = [pid]) ∧
  (s.liveDocs = [] ∨ ∃ d, s.ydoc = some d ∧ s.liveDocs = [d]) ∧
  s.devSlot = none

/-- Is the call a `reconnect` or `manualSync`? -/
def isReconOrManual {P : Type} : SyncCall P → Bool
  | SyncCall.start _ => false
  | _ => true

/-- `lastStart cs acc`: the parameters of the most recent `startDataSync`
in `cs`, defaulting to `acc`. -/
def lastStart {P : Type} : List (SyncCall P) → Option P → Option P
  | [], acc => acc
  | c :: cs, acc =>
    lastStart cs (match c with
      | SyncCall.start p => some p
      | _ => acc)

/-! ## Entry-point wrappers (part_000 lines 27-46, 115-124; global.ts) -/

/-- `DataSync.startDataSync` (part_000 lines 35-46).  Line 41 reads
`window.__ONLY_USE_FOR_CLEANUP_IN_DEV` unconditionally; in an environment
with no `window` binding that access throws a `ReferenceError`, modelled as
the error outcome. -/
def startDataSync {P : Type} (win dev : Bool) (p : P) (s : SyncState P) :
    Except Unit (SyncState P) :=
  if win then Except.ok (runLifeSteps dev (startSteps p) s)
  else Except.error ()

/-- `DataSync.reconnect` (part_000 lines 120-124); touches no `window`. -/
def reconnect {P : Type} (dev : Bool) (p : P) (s : SyncState P) :
    SyncState P :=
  runLifeSteps dev (reconSteps p) s

/-- `DataSync.manualSync` (part_000 lines 115-118): reconnect with
`this.syncParams`; throws when no params were ever stored. -/
def manualSync {P : Type} (dev : Bool) (s : SyncState P) :
    Except Unit (SyncState P) :=
  match s.syncParams with
  | none => Except.error ()
  | some p => Except.ok (runLifeSteps dev (reconSteps p) s)

/-- `DataSync.transact` (part_000 lines 27-29): `this._ydoc?.transact(fn)`;
returns whether the callback ran; never throws and changes no field. -/
def transact {P : Type} (s : SyncState P) : Bool × SyncState P :=
  (s.ydoc.isSome, s)

/-- `DataSync.getYMap` (part_000 lines 31-33): `this._ydoc?.getMap(key)`;
`none` when the document handle is null. -/
def getYMap {P : Type} (s : SyncState P) (k : String) :
    Option (Nat × String) :=
  s.ydoc.map (fun d => (d, k))

/-- `GlobalService.enabledSync` (global.ts lines 26-31): `false` without a
`window`, otherwise `startDataSync` (which cannot throw here) then `true`. -/
def enabledSync {P : Type} (win dev : Bool) (p : P) (s : SyncState P) :
    SyncState P × Bool :=
  if win then (runLifeSteps dev (startSteps p) s, true) else (s, false)

/-- `GlobalService.reconnect` (global.ts lines 33-39): `false` without a
`window`, otherwise `syncBus.reconnect(params)`, then `syncBus.manualSync()`
(whose exception, if any, escapes), then `true`. -/
def svcReconnect {P : Type} (win dev : Bool) (p : P) (s : SyncState P) :
    Except Unit (SyncState P × Bool) :=
  if win then
    match manualSync dev (reconnect dev p s) with
    | Except.error e => Except.error e
    | Except.ok s2 => Except.ok (s2, true)
  else Except.ok (s, false)

end LobeSync

namespace LobeSync

theorem batches_length {α : Type} (items : List α) :
    (batches items).length = totalBatches items.length := by
  simp [batches]

theorem batches_sizes {α : Type} (items : List α) :
    ∀ b ∈ batches items, b.length ≤ batchSize := by
  intro b hb
  simp only [batches, List.mem_map, List.mem_range] at hb
  obtain ⟨i, _, rfl⟩ := hb
  simp

theorem totalBatches_succ (n : Nat) (h : 0 < n) :
    totalBatches n = totalBatches (n - batchSize) + 1 := by
  unfold totalBatches batchSize
  rcases Nat.lt_or_ge n 50 with hn | hn
  · have h1 : n - 50 = 0 := by omega
    rw [h1]
    have h2 : (n + 50 - 1) / 50 = 1 := by
      apply Nat.div_eq_of_lt_le <;> omega
    omega
  · have h3 : n - 50 + 50 - 1 + 50 = n + 50 - 1 := by omega
    rw [← h3, Nat.add_div_right _ (by norm_num)]

theorem batches_cons {α : Type} (l : List α) (hpos : 0 < l.length) :
    batches l = l.take batchSize :: batches (l.drop batchSize) := by
  unfold batches
  rw [totalBatches_succ l.length hpos, List.range_succ_eq_map,
    List.map_cons, List.map_map, List.length_drop]
  refine congrArg₂ List.cons (by simp) ?_
  apply List.map_congr_left
  intro i _
  simp only [Function.comp_apply, List.drop_drop]
  have h1 : (i + 1) * batchSize = batchSize + i * batchSize := by ring
  rw [Nat.succ_eq_add_one, h1]

theorem batches_flatten_aux {α : Type} :
    ∀ (fuel : Nat) (l : List α), l.length ≤ fuel → (batches l).flatten = l := by
  intro fuel
  induction fuel with
  | zero =>
    intro l hl
    have h0 : l = [] := List.length_eq_zero.mp (Nat.le_zero.mp hl)
    subst h0
    simp [batches, totalBatches, batchSize]
  | succ n ih =>
    intro l hl
    rcases Nat.eq_zero_or_pos l.length with h0 | hpos
    · have he : l = [] := List.length_eq_zero.mp h0
      subst he
      simp [batches, totalBatches, batchSize]
    · have hrec := ih (l.drop batchSize) (by
        rw [List.length_drop]
        have hb50 : batchSize = 50 := rfl
        omega)
      rw [batches_cons l hpos, List.flatten_cons, hrec, List.take_append_drop]

theorem batches_flatten {α : Type} (l : List α) : (batches l).flatten = l :=
  batches_flatten_aux l.length l le_rfl

theorem ymapSet_fresh {K V : Type} [DecidableEq K] (m : List (K × V))
    (id : K) (v : V) (h : id ∉ m.map Prod.fst) :
    ymapSet m id v = m ++ [(id, v)] := by
  unfold ymapSet
  rw [if_neg]
  simpa using h

theorem foldl_set_fresh {K V : Type} [DecidableEq K] :
    ∀ (items acc : List (K × V)),
      (items.map Prod.fst).Nodup →
      (∀ k ∈ acc.map Prod.fst, k ∉ items.map Prod.fst) →
      items.foldl (fun m it => ymapSet m it.1 it.2) acc = acc ++ items := by
  intro items
  induction items with
  | nil => intro acc _ _; simp
  | cons it rest ih =>
    intro acc hnd hdisj
    simp only [List.map_cons, List.nodup_cons] at hnd
    have hfresh : it.1 ∉ acc.map Prod.fst := by
      intro hmem
      exact hdisj it.1 hmem (by simp)
    simp only [List.foldl_cons, ymapSet_fresh acc it.1 it.2 hfresh]
    rw [ih (acc ++ [(it.1, it.2)]) hnd.2]
    · simp
    · intro k hk
      simp only [List.map_append, List.mem_append, List.map_cons] at hk
      rcases hk with hk | hk
      · intro hmem
        exact hdisj k hk (by simp [hmem])
      · simp only [List.map_nil, List.mem_singleton] at hk
        subst hk
        exact hnd.1

theorem loadDataFromDBtoYjs_empty {K V : Type} [DecidableEq K]
    (items : List (K × V)) (hnd : (items.map Prod.fst).Nodup) :
    loadDataFromDBtoYjs items [] = items := by
  unfold loadDataFromDBtoYjs applyBatch
  rw [← List.foldl_flatten, batches_flatten]
  simpa using foldl_set_fresh items [] hnd (by simp)

/-- C2: for a table of `n` local records the bootstrap load performs exactly
`ceil(n/50)` document transactions (`totalBatches`), each a contiguous batch
of at most 50 records, whose concatenation in order is exactly the original
record sequence; starting from the empty replicated map and with pairwise
distinct record identifiers, the map afterwards holds exactly those `n`
records keyed by identifier. -/
theorem c2_batch_completeness {K V : Type} [DecidableEq K]
    (items : List (K × V)) (hnd : (items.map Prod.fst).Nodup) :
    (batches items).length = totalBatches items.length ∧
    (∀ b ∈ batches items, b.length ≤ batchSize) ∧
    (batches items).flatten = items ∧
    loadDataFromDBtoYjs items [] = items ∧
    (loadDataFromDBtoYjs items []).length = items.length :=
  ⟨batches_length items, batches_sizes items, batches_flatten items,
    loadDataFromDBtoYjs_empty items hnd, by
      rw [loadDataFromDBtoYjs_empty items hnd]⟩

set_option maxRecDepth 8000 in
/-- C2 witness: the spec's own example, a table of 123 records, yields
3 transactions of sizes 50, 50, 23 and a final replicated map of exactly
those 123 entries. -/
theorem c2_batch_completeness_witness :
    (((List.range 123).map (fun i => (i, i))).map Prod.fst).Nodup ∧
    ((batches ((List.range 123).map (fun i => (i, i)))).length =
        totalBatches 123 ∧
      (∀ b ∈ batches ((List.range 123).map (fun i => (i, i))),
        b.length ≤ batchSize) ∧
      (batches ((List.range 123).map (fun i => (i, i)))).flatten =
        (List.range 123).map (fun i => (i, i)) ∧
      loadDataFromDBtoYjs ((List.range 123).map (fun i => (i, i))) [] =
        (List.range 123).map (fun i => (i, i)) ∧
      (loadDataFromDBtoYjs ((List.range 123).map (fun i => (i, i))) []).length =
        ((List.range 123).map (fun i => (i, i))).length) ∧
    (batches ((List.range 123).map (fun i => (i, i)))).map List.length =
      [50, 50, 23] ∧
    totalBatches 123 = 3 :=
  ⟨by decide, by
    have h := c2_batch_completeness ((List.range 123).map (fun i => (i, i)))
      (by decide)
    simpa using h, by decide, by decide⟩

/-- C3: a change event whose originating transaction is local is discarded
entirely: the observer performs no local-store write, emits no status
change, arms or cancels no settle timer (empty effect trace) and leaves the
local table untouched. -/
theorem c3_echo_suppression {K V : Type} [DecidableEq K]
    (yMap t : List (K × V)) (ev : YMapEvent K) (h : ev.txLocal = true) :
    handleEvent yMap t ev = Except.ok ([], t) := by
  simp [handleEvent, h]

/-- C3 witness: a concrete locally-flagged event over a non-trivial map and
table produces no effects and no table change. -/
theorem c3_echo_suppression_witness :
    (YMapEvent.mk true [(1, YAction.add), (2, YAction.delete)]).txLocal = true ∧
    handleEvent [(1, 10)] [(2, 5)]
        (YMapEvent.mk true [(1, YAction.add), (2, YAction.delete)]) =
      Except.ok (([] : List (ObsEffect Nat Nat)), [(2, 5)]) :=
  ⟨by decide,
    c3_echo_suppression [(1, 10)] [(2, 5)]
      (YMapEvent.mk true [(1, YAction.add), (2, YAction.delete)]) (by decide)⟩

theorem dexieGet_cons {K V : Type} [DecidableEq K] (k id : K) (val : V)
    (rest : List (K × V)) :
    dexieGet ((k, val) :: rest) id =
      if id = k then some val else dexieGet rest id := by
  by_cases h : id = k
  · subst h
    simp [dexieGet]
  · simp [dexieGet, List.lookup_cons, beq_false_of_ne h, h]

theorem dexieUpdate_cons {K V : Type} [DecidableEq K] (k id : K) (val v : V)
    (rest : List (K × V)) :
    dexieUpdate ((k, val) :: rest) id v =
      (if k = id then (id, v) else (k, val)) :: dexieUpdate rest id v := rfl

theorem dexieDelete_cons {K V : Type} [DecidableEq K] (k id : K) (val : V)
    (rest : List (K × V)) :
    dexieDelete ((k, val) :: rest) id =
      if k = id then dexieDelete rest id
      else (k, val) :: dexieDelete rest id := by
  by_cases h : k = id <;> simp [dexieDelete, List.filter_cons, h]

theorem dexieGet_update_self {K V : Type} [DecidableEq K] :
    ∀ (t : List (K × V)) (id : K) (v w : V), dexieGet t id = some w →
      dexieGet (dexieUpdate t id v) id = some v := by
  intro t id v w
  induction t with
  | nil => intro h; simp [dexieGet] at h
  | cons e rest ih =>
    obtain ⟨k, val⟩ := e
    intro h
    rw [dexieGet_cons] at h
    rw [dexieUpdate_cons]
    by_cases he : id = k
    · subst he
      rw [if_pos rfl, dexieGet_cons, if_pos rfl]
    · rw [if_neg (fun hh => he hh.symm), dexieGet_cons, if_neg he]
      rw [if_neg he] at h
      exact ih h

theorem dexieDelete_absent {K V : Type} [DecidableEq K] :
    ∀ (t : List (K × V)) (id : K), dexieGet t id = none →
      dexieDelete t id = t := by
  intro t id
  induction t with
  | nil => intro _; rfl
  | cons e rest ih =>
    obtain ⟨k, val⟩ := e
    intro h
    rw [dexieGet_cons] at h
    by_cases he : id = k
    · rw [if_pos he] at h
      exact absurd h (by simp)
    · rw [if_neg he] at h
      rw [dexieDelete_cons, if_neg (fun hh => he hh.symm), ih h]

theorem dexieAdd_absent {K V : Type} [DecidableEq K]
    (t : List (K × V)) (id : K) (v : V) (h : dexieGet t id = none) :
    dexieAdd t id v = Except.ok (t ++ [(id, v)]) := by
  simp [dexieAdd, h]

/-- C7: applying one remote change to the local table, with the changed
record present in the replicated map: an `add` action whose identifier is
already present locally is applied as an update (same number of rows, value
replaced, no duplicate insert and no error); an `update` action whose
identifier is absent locally inserts the record (upsert); a `delete` action
whose identifier is absent locally completes without error and leaves the
table unchanged. -/
theorem c7_action_mapping {K V : Type} [DecidableEq K]
    (yMap tP tA : List (K × V)) (id : K) (v w : V)
    (hy : dexieGet yMap id = some v)
    (hP : dexieGet tP id = some w)
    (hA : dexieGet tA id = none) :
    (applyKeyChange yMap tP id YAction.add =
        Except.ok (dexieUpdate tP id v, TableWrite.wUpdate id v) ∧
      (dexieUpdate tP id v).length = tP.length ∧
      dexieGet (dexieUpdate tP id v) id = some v) ∧
    applyKeyChange yMap tA id YAction.update =
      Except.ok (tA ++ [(id, v)], TableWrite.wAdd id v) ∧
    applyKeyChange yMap tA id YAction.delete =
      Except.ok (tA, TableWrite.wDelete id) := by
  refine ⟨⟨?_, ?_, ?_⟩, ?_, ?_⟩
  · simp [applyKeyChange, hy, hP]
  · simp [dexieUpdate]
  · exact dexieGet_update_self tP id v w hP
  · simp [applyKeyChange, hy, hA, dexieAdd_absent tA id v hA, Except.map]
  · simp [applyKeyChange, dexieDelete_absent tA id hA]

/-- C7 witness: concrete tables exercising all three hypotheses — the
replicated map holds `(7, 42)`, the present-table holds `(7, 1)` and the
absent-table holds only `(3, 9)`. -/
theorem c7_action_mapping_witness :
    dexieGet [(7, 42)] 7 = some 42 ∧
    dexieGet [(7, 1)] 7 = some 1 ∧
    dexieGet [(3, 9)] 7 = none ∧
    ((applyKeyChange [(7, 42)] [(7, 1)] 7 YAction.add =
        Except.ok (dexieUpdate [(7, 1)] 7 42, TableWrite.wUpdate 7 42) ∧
      (dexieUpdate [(7, 1)] 7 42).length = [(7, 1)].length ∧
      dexieGet (dexieUpdate [(7, 1)] 7 42) 7 = some 42) ∧
    applyKeyChange [(7, 42)] [(3, 9)] 7 YAction.update =
      Except.ok ([(3, 9)] ++ [(7, 42)], TableWrite.wAdd 7 42) ∧
    applyKeyChange [(7, 42)] [(3, 9)] 7 YAction.delete =
      Except.ok ([(3, 9)], TableWrite.wDelete 7)) :=
  ⟨by decide, by decide, by decide,
    c7_action_mapping [(7, 42)] [(7, 1)] [(3, 9)] 7 42 1
      (by decide) (by decide) (by decide)⟩

theorem processEvents_pending :
    ∀ (rest : List Nat) (t : Nat),
      List.Chain (fun a b => a ≤ b ∧ b < a + settleMs) t rest →
      processEvents rest (some (t + settleMs)) =
        rest.map (fun u => (u, SyncStatus.syncing)) ++
          [(rest.getLastD t + settleMs, SyncStatus.synced)] := by
  intro rest
  induction rest with
  | nil => intro t _; simp [processEvents, List.getLastD]
  | cons u rest ih =>
    intro t h
    obtain ⟨⟨h1, h2⟩, h3⟩ := List.chain_cons.mp h
    have hlt : ¬ (t + settleMs ≤ u) := by omega
    simp only [processEvents, if_neg hlt, List.map_cons, List.getLastD_cons]
    rw [ih u h3]
    simp

/-- C5: for a nonempty run of remote change events on one table in which
each event arrives less than 2000 ms after the previous one, the observer
emits `syncing` at each event instant (cancelling the pending settle
timer), and emits `synced` exactly once, 2000 ms after the last event's
application completes, never between events. -/
theorem c5_settle_debounce (t : Nat) (rest : List Nat)
    (h : List.Chain (fun a b => a ≤ b ∧ b < a + settleMs) t rest) :
    processEvents (t :: rest) none =
      (t :: rest).map (fun u => (u, SyncStatus.syncing)) ++
        [(rest.getLastD t + settleMs, SyncStatus.synced)] := by
  simp only [processEvents, List.map_cons]
  rw [processEvents_pending rest t h]
  simp

/-- C5 witness: the spec's example — events at t = 0, 500, 1000 ms yield
`syncing` at each event and a single `synced` at t = 3000 ms. -/
theorem c5_settle_debounce_witness :
    List.Chain (fun a b => a ≤ b ∧ b < a + settleMs) 0 [500, 1000] ∧
    processEvents [0, 500, 1000] none =
      [(0, SyncStatus.syncing), (500, SyncStatus.syncing),
        (1000, SyncStatus.syncing), (3000, SyncStatus.synced)] :=
  ⟨List.Chain.cons (by norm_num [settleMs])
      (List.Chain.cons (by norm_num [settleMs]) List.Chain.nil), by
    have h := c5_settle_debounce 0 [500, 1000]
      (List.Chain.cons (by norm_num [settleMs])
        (List.Chain.cons (by norm_num [settleMs]) List.Chain.nil))
    simpa using h⟩

theorem loadTableJob_preserves {V : Type} (db : String → List (String × V))
    (fails : String → Bool) (k k2 : String)
    (m : String → List (String × V)) (h : k2 ≠ k) :
    (loadTableJob db fails k m).1 k2 = m k2 := by
  unfold loadTableJob
  split
  · rfl
  · simp [setTableMap, h]

theorem initSyncFold_preserves {V : Type} (db : String → List (String × V))
    (fails : String → Bool) :
    ∀ (ks : List String)
      (macc : (String → List (String × V)) × Except String Unit)
      (k : String), k ∉ ks →
      (ks.foldl (initSyncStep db fails) macc).1 k = macc.1 k := by
  intro ks
  induction ks with
  | nil => intro macc k _; rfl
  | cons k0 ks ih =>
    intro macc k hk
    simp only [List.mem_cons, not_or] at hk
    rw [List.foldl_cons, ih _ k hk.2]
    exact loadTableJob_preserves db fails k0 k macc.1 hk.1

theorem initSyncFold_loads {V : Type} (db : String → List (String × V))
    (fails : String → Bool) :
    ∀ (ks : List String)
      (macc : (String → List (String × V)) × Except String Unit)
      (k : String), k ∈ ks → ks.Nodup → fails k = false →
      (ks.foldl (initSyncStep db fails) macc).1 k =
        loadDataFromDBtoYjs (db k) (macc.1 k) := by
  intro ks
  induction ks with
  | nil => intro macc k hk; exact absurd hk (by simp)
  | cons k0 ks ih =>
    intro macc k hk hnd hf
    rw [List.foldl_cons]
    rcases List.mem_cons.mp hk with rfl | hk2
    · have hnotin : k ∉ ks := (List.nodup_cons.mp hnd).1
      rw [initSyncFold_preserves db fails ks _ k hnotin]
      simp [initSyncStep, loadTableJob, hf, setTableMap]
    · have hnd2 := (List.nodup_cons.mp hnd).2
      rw [ih _ k hk2 hnd2 hf]
      have hne : k ≠ k0 := by
        rintro rfl
        exact (List.nodup_cons.mp hnd).1 hk2
      have hpr : (initSyncStep db fails macc k0).1 k = macc.1 k :=
        loadTableJob_preserves db fails k0 k macc.1 hne
      rw [hpr]

/-- C4: during the bootstrap of all tables, a rejection in one table's load
does not prevent the other tables' loads from completing: every table not
marked by the failure oracle ends with its full batched load applied to its
replicated map, whatever the oracle does to the other tables (the
`Promise.all` aggregation affects only the aggregate result, not sibling
jobs' effects). -/
theorem c4_error_isolation {V : Type} (db : String → List (String × V))
    (fails : String → Bool) (m : String → List (String × V)) (k : String)
    (hk : k ∈ tableKeys) (hok : fails k = false) :
    (initSync db fails m).1 k = loadDataFromDBtoYjs (db k) (m k) :=
  initSyncFold_loads db fails tableKeys (m, Except.ok ()) k hk (by decide) hok

/-- C4 witness: with the `topics` table failing, the `sessions` table still
loads completely (and the aggregate result does report the failure). -/
theorem c4_error_isolation_witness :
    ("sessions" ∈ tableKeys) ∧
    ((fun t => t == "topics") "sessions" = false) ∧
    (initSync (fun _ => [("a", 1)]) (fun t => t == "topics")
        (fun _ => [])).1 "sessions" =
      loadDataFromDBtoYjs [("a", 1)] [] ∧
    (initSync (fun t => [(t, 1)]) (fun t => t == "topics")
        (fun _ => ([] : List (String × Nat)))).2 = Except.error "topics" :=
  ⟨by decide, by decide,
    c4_error_isolation (fun _ => [("a", 1)]) (fun t => t == "topics")
      (fun _ => []) "sessions" (by decide) (by decide), by rfl⟩

/-- C6 counterexample: the claim states that `cleanConnection` called twice
in a row performs no releases on the second call; but the source never
clears `this.provider` or `this._ydoc`, so the second call re-issues the
full release sequence on the already-destroyed provider instead of
performing none. -/
theorem c6_claim_counterexample :
    (cleanConnectionRun
        (cleanConnectionRun
          (ConnShape.mk (some (ProviderShape.mk true)) true)).1).2 =
      [CleanAct.awarenessDestroy, CleanAct.roomDisconnect, CleanAct.roomDestroy,
        CleanAct.providerDisconnect, CleanAct.providerDestroy,
        CleanAct.docDestroy] ∧
    (cleanConnectionRun
        (cleanConnectionRun
          (ConnShape.mk (some (ProviderShape.mk true)) true)).1).2 ≠ [] := by
  decide

/-- C6 (amended): `cleanConnection` with a provider releases resources in
exactly the order awareness, room disconnect, room destroy, provider
disconnect, provider destroy, document destroy (the optional room and
document steps present exactly when those objects exist), raising no error;
called with no provider it performs no releases and raises no error; and a
second consecutive call re-issues exactly the same release sequence (rather
than performing none), because the provider and document fields are never
cleared. -/
theorem c6_teardown_order_amended (r yd : Bool) :
    cleanConnectionRun (ConnShape.mk none yd) = (ConnShape.mk none yd, []) ∧
    (cleanConnectionRun (ConnShape.mk (some (ProviderShape.mk r)) yd)).2 =
      [CleanAct.awarenessDestroy] ++
        (if r then [CleanAct.roomDisconnect, CleanAct.roomDestroy] else []) ++
        [CleanAct.providerDisconnect, CleanAct.providerDestroy] ++
        (if yd then [CleanAct.docDestroy] else []) ∧
    cleanConnectionRun
        ((cleanConnectionRun (ConnShape.mk (some (ProviderShape.mk r)) yd)).1) =
      cleanConnectionRun (ConnShape.mk (some (ProviderShape.mk r)) yd) := by
  cases r <;> cases yd <;> decide

theorem cleanConn_none {P : Type} (s : SyncState P) : cleanConn none s = s :=
  rfl

theorem cleanConn_provider {P : Type} (arg : Option Nat) (s : SyncState P) :
    (cleanConn arg s).provider = s.provider := by
  cases arg <;> rfl

theorem cleanConn_ydoc {P : Type} (arg : Option Nat) (s : SyncState P) :
    (cleanConn arg s).ydoc = s.ydoc := by
  cases arg <;> rfl

theorem cleanConn_devSlot {P : Type} (arg : Option Nat) (s : SyncState P) :
    (cleanConn arg s).devSlot = s.devSlot := by
  cases arg <;> rfl

theorem cleanConn_syncParams {P : Type} (arg : Option Nat) (s : SyncState P) :
    (cleanConn arg s).syncParams = s.syncParams := by
  cases arg <;> rfl

theorem cleanConn_nextId {P : Type} (arg : Option Nat) (s : SyncState P) :
    (cleanConn arg s).nextId = s.nextId := by
  cases arg <;> rfl

theorem cleanConn_some_evLog {P : Type} (pid : Nat) (s : SyncState P) :
    (cleanConn (some pid) s).evLog = s.evLog ++ [LifeEv.cleaned] :=
  rfl

theorem startSteps_run {P : Type} (dev : Bool) (p : P) (s : SyncState P) :
    (runLifeSteps dev (startSteps p) s).provider.isSome = true ∧
    (runLifeSteps dev (startSteps p) s).syncParams = some p := by
  simp [startSteps, runLifeSteps, lifeStep, cleanConn_syncParams]

theorem reconSteps_run {P : Type} (dev : Bool) (p : P) (s : SyncState P)
    (pid : Nat) (hp : s.provider = some pid) :
    (runLifeSteps dev (reconSteps p) s).evLog =
      s.evLog ++ [LifeEv.cleaned, LifeEv.connected p] ∧
    (runLifeSteps dev (reconSteps p) s).provider.isSome = true ∧
    (runLifeSteps dev (reconSteps p) s).syncParams = s.syncParams := by
  simp [reconSteps, runLifeSteps, lifeStep, hp, cleanConn_syncParams,
    cleanConn_some_evLog]

theorem runCalls_append {P : Type} (dev : Bool) :
    ∀ (xs ys : List (SyncCall P)) (s : SyncState P),
      runCalls dev (xs ++ ys) s =
        match runCalls dev xs s with
        | Except.ok s2 => runCalls dev ys s2
        | Except.error e => Except.error e := by
  intro xs
  induction xs with
  | nil => intro ys s; rfl
  | cons c xs ih =>
    intro ys s
    simp only [List.cons_append, runCalls]
    cases callSteps c s with
    | none => rfl
    | some steps => exact ih ys _

theorem lastStart_isSome {P : Type} :
    ∀ (cs : List (SyncCall P)) (acc : Option P), acc.isSome = true →
      (lastStart cs acc).isSome = true := by
  intro cs
  induction cs with
  | nil => intro acc h; exact h
  | cons c cs ih =>
    intro acc h
    cases c with
    | start p => exact ih (some p) rfl
    | recon p => exact ih acc h
    | manual => exact ih acc h

theorem runCalls_params {P : Type} (dev : Bool) :
    ∀ (cs : List (SyncCall P)) (s : SyncState P),
      s.provider.isSome = true → s.syncParams.isSome = true →
      ∃ s2, runCalls dev cs s = Except.ok s2 ∧ s2.provider.isSome = true ∧
        s2.syncParams = lastStart cs s.syncParams := by
  intro cs
  induction cs with
  | nil => intro s hp hsp; exact ⟨s, rfl, hp, rfl⟩
  | cons c cs ih =>
    intro s hp hsp
    cases c with
    | start p =>
      have h1 := startSteps_run dev p s
      obtain ⟨s2, hrun, h2, h3⟩ :=
        ih (runLifeSteps dev (startSteps p) s) h1.1 (by rw [h1.2]; rfl)
      refine ⟨s2, hrun, h2, ?_⟩
      rw [h3, h1.2]
      rfl
    | recon p =>
      obtain ⟨pid, hpid⟩ := Option.isSome_iff_exists.mp hp
      have h1 := reconSteps_run dev p s pid hpid
      obtain ⟨s2, hrun, h2, h3⟩ :=
        ih (runLifeSteps dev (reconSteps p) s) h1.2.1 (by rw [h1.2.2]; exact hsp)
      refine ⟨s2, hrun, h2, ?_⟩
      rw [h3, h1.2.2]
      rfl
    | manual =>
      obtain ⟨q, hq⟩ := Option.isSome_iff_exists.mp hsp
      obtain ⟨pid, hpid⟩ := Option.isSome_iff_exists.mp hp
      have h1 := reconSteps_run dev q s pid hpid
      obtain ⟨s2, hrun, h2, h3⟩ :=
        ih (runLifeSteps dev (reconSteps q) s) h1.2.1 (by rw [h1.2.2]; exact hsp)
      refine ⟨s2, ?_, h2, ?_⟩
      · simp only [runCalls, callSteps, hq, Option.map_some]
        exact hrun
      · rw [h3, h1.2.2]
        rfl

/-- C9 counterexample: after `startDataSync` with params `0` and `reconnect`
with params `1`, `manualSync` reconnects with params `0` — the parameters of
the last `startDataSync` — not with `1`, the parameters of the most recent
start-or-reconnect call (`reconnect` never stores `this.syncParams`,
part_000 lines 120-124 vs line 36). -/
theorem c9_claim_counterexample :
    ((runCalls false [SyncCall.start 0, SyncCall.recon 1, SyncCall.manual]
        (initState (P := Nat))).toOption.map
      (fun s => s.evLog.getLast?)) = some (some (LifeEv.connected 0)) ∧
    (0 : Nat) ≠ 1 := by
  decide

/-- C9 (amended): `manualSync` performs a forced reconnect (teardown logged,
then a connection) using the parameters of the most recent `startDataSync`
call — not of the most recent start-or-reconnect: for every sequence
beginning with `startDataSync`, appending a `manualSync` succeeds and its
reconnect connects with exactly the last `startDataSync` parameters. -/
theorem c9_manual_sync_params_amended {P : Type} (dev : Bool) (p0 : P)
    (rest : List (SyncCall P)) :
    ∃ q s2 lg, lastStart (SyncCall.start p0 :: rest) none = some q ∧
      runCalls dev (SyncCall.start p0 :: rest ++ [SyncCall.manual])
          initState = Except.ok s2 ∧
      s2.evLog = lg ++ [LifeEv.cleaned, LifeEv.connected q] := by
  have h0 := startSteps_run dev p0 (initState (P := P))
  obtain ⟨s2, hrun, hp2, hsp2⟩ :=
    runCalls_params dev rest (runLifeSteps dev (startSteps p0) initState)
      h0.1 (by rw [h0.2]; rfl)
  have hq : (lastStart rest (some p0)).isSome = true :=
    lastStart_isSome rest (some p0) rfl
  obtain ⟨q, hq2⟩ := Option.isSome_iff_exists.mp hq
  obtain ⟨pid2, hpid2⟩ := Option.isSome_iff_exists.mp hp2
  have h3 := reconSteps_run dev q s2 pid2 hpid2
  have hsq : s2.syncParams = some q := by
    rw [hsp2, h0.2]
    exact hq2
  refine ⟨q, runLifeSteps dev (reconSteps q) s2, s2.evLog, ?_, ?_, h3.1⟩
  · exact hq2
  · show runCalls dev (rest ++ [SyncCall.manual])
        (runLifeSteps dev (startSteps p0) initState) = _
    rw [runCalls_append dev rest [SyncCall.manual] _, hrun]
    simp only [runCalls, callSteps, hsq]
    rfl

/-- C10: in a window-capable environment, `GlobalService.reconnect(params)`
performs two complete teardown-and-connect cycles in sequence — first a
reconnect with the given params, then a second reconnect via `manualSync`
with the parameters stored by the last `startDataSync` (not necessarily the
params just passed) — and returns `true`. -/
theorem c10_service_reconnect {P : Type} (dev : Bool) (p p0 : P)
    (s : SyncState P) (pid : Nat) (hp : s.provider = some pid)
    (hsp : s.syncParams = some p0) :
    ∃ s2, svcReconnect true dev p s = Except.ok (s2, true) ∧
      s2.evLog = s.evLog ++
        [LifeEv.cleaned, LifeEv.connected p, LifeEv.cleaned,
          LifeEv.connected p0] := by
  have h1 := reconSteps_run dev p s pid hp
  obtain ⟨pid1, hpid1⟩ :=
    Option.isSome_iff_exists.mp h1.2.1
  have hsp1 : (runLifeSteps dev (reconSteps p) s).syncParams = some p0 := by
    rw [h1.2.2, hsp]
  have h2 := reconSteps_run dev p0 (runLifeSteps dev (reconSteps p) s)
    pid1 hpid1
  refine ⟨runLifeSteps dev (reconSteps p0) (runLifeSteps dev (reconSteps p) s),
    ?_, ?_⟩
  · simp only [svcReconnect, reconnect, manualSync, hsp1, if_true]
  · rw [h2.1, h1.1]
    simp

/-- C10 witness: from the state reached by `startDataSync` with params `5`,
the service-level reconnect with params `7` tears down and connects with
`7`, then tears down and connects with `5`, and returns `true`. -/
theorem c10_service_reconnect_witness :
    (runLifeSteps false (startSteps (5 : Nat)) initState).provider = some 1 ∧
    (runLifeSteps false (startSteps (5 : Nat)) initState).syncParams =
      some 5 ∧
    ∃ s2, svcReconnect true false 7
          (runLifeSteps false (startSteps (5 : Nat)) initState) =
        Except.ok (s2, true) ∧
      s2.evLog =
        (runLifeSteps false (startSteps (5 : Nat)) initState).evLog ++
          [LifeEv.cleaned, LifeEv.connected 7, LifeEv.cleaned,
            LifeEv.connected 5] :=
  ⟨by decide, by decide,
    c10_service_reconnect false 7 5
      (runLifeSteps false (startSteps (5 : Nat)) initState) 1
      (by decide) (by decide)⟩

/-- C8 counterexample: with no runtime `window`, `DataSync.startDataSync`
does not degrade to a no-op: line 41 reads the `window` dev-cleanup slot
unconditionally, which throws a `ReferenceError` to the caller. -/
theorem c8_claim_counterexample :
    startDataSync false false (0 : Nat) initState = Except.error () :=
  rfl

/-- C8 (amended): with no runtime `window`, the guarded entry points
degrade to no-ops: `GlobalService.enabledSync` and
`GlobalService.reconnect` return `false` without touching the sync engine,
and with the document handle null `transact` does not run its callback and
`getYMap` returns nothing, neither failing; but `DataSync.startDataSync`
invoked directly is excluded — it throws at the dev-cleanup slot access
(see the counterexample) and is only reachable behind `enabledSync`'s
window guard. -/
theorem c8_noop_degradation_amended {P : Type} (dev : Bool) (p : P)
    (s : SyncState P) (k : String) :
    enabledSync false dev p s = (s, false) ∧
    svcReconnect false dev p s = Except.ok (s, false) ∧
    (s.ydoc = none → transact s = (false, s) ∧ getYMap s k = none) := by
  refine ⟨rfl, rfl, fun h => ⟨?_, ?_⟩⟩
  · simp [transact, h]
  · simp [getYMap, h]

/-- C8 witness: the freshly constructed instance (null handle) in a
window-less environment. -/
theorem c8_noop_degradation_witness :
    (initState (P := Nat)).ydoc = none ∧
    enabledSync false false (0 : Nat) initState = (initState, false) ∧
    svcReconnect false false (0 : Nat) initState =
      Except.ok (initState, false) ∧
    transact (initState (P := Nat)) = (false, initState) ∧
    getYMap (initState (P := Nat)) "sessions" = none :=
  ⟨rfl, (c8_noop_degradation_amended false 0 initState "sessions").1,
    (c8_noop_degradation_amended false 0 initState "sessions").2.1,
    ((c8_noop_degradation_amended false 0 initState "sessions").2.2 rfl).1,
    ((c8_noop_degradation_amended false 0 initState "sessions").2.2 rfl).2⟩

/-- C1 counterexample: in a production build, the claim fails already for
the sequential sequence `startDataSync; startDataSync`: the second call
performs no teardown (the dev-cleanup slot is only populated in
development builds), so after it two providers and two documents are live —
the first pair is leaked. -/
theorem c1_claim_counterexample :
    ((runCalls false [SyncCall.start 0, SyncCall.start 1]
        (initState (P := Nat))).toOption.map
      (fun s => (s.liveProviders.length, s.liveDocs.length))) =
      some (2, 2) := by
  decide

theorem recon_check {P : Type} (p : P) (s : SyncState P)
    (h : GoodState s) (hp : s.provider.isSome = true) :
    runCheck false AtMostOne (reconSteps p) s ∧
    GoodState (runLifeSteps false (reconSteps p) s) ∧
    (runLifeSteps false (reconSteps p) s).provider.isSome = true ∧
    (runLifeSteps false (reconSteps p) s).syncParams = s.syncParams := by
  obtain ⟨pid, hpid⟩ := Option.isSome_iff_exists.mp hp
  obtain ⟨hP, hD, hslot⟩ := h
  have hs1P : (cleanConn (some pid) s).liveProviders = [] := by
    rcases hP with hP | ⟨pid2, hpr2, hP⟩
    · simp [cleanConn, hP]
    · rw [hpid] at hpr2
      obtain rfl : pid = pid2 := Option.some.inj hpr2
      simp [cleanConn, hP]
  have hs1D : (cleanConn (some pid) s).liveDocs = [] := by
    rcases hD with hD | ⟨d, hyd, hD⟩
    · cases hy : s.ydoc <;> simp [cleanConn, hy, hD]
    · simp [cleanConn, hyd, hD]
  have hs1slot : (cleanConn (some pid) s).devSlot = none := by
    rw [cleanConn_devSlot]
    exact hslot
  simp only [reconSteps, runLifeSteps, runCheck, lifeStep, hpid]
  refine ⟨⟨⟨?_, ?_⟩, ⟨?_, ?_⟩, ⟨?_, ?_⟩, trivial⟩, ⟨?_, ?_, ?_⟩, ?_, ?_⟩
  · rw [hs1P]; simp
  · rw [hs1D]; simp
  · simp [hs1P]
  · simp [hs1D]
  · simp [hs1P]
  · simp [hs1D]
  · right
    exact ⟨_, rfl, by simp [hs1P]⟩
  · right
    exact ⟨_, rfl, by simp [hs1D]⟩
  · simp [hs1slot]
  · simp
  · simp [cleanConn_syncParams]

theorem start_check_init {P : Type} (p : P) :
    runCheck false AtMostOne (startSteps p) (initState (P := P)) ∧
    GoodState (runLifeSteps false (startSteps p) initState) ∧
    (runLifeSteps false (startSteps p) initState).provider.isSome = true ∧
    (runLifeSteps false (startSteps p) initState).syncParams.isSome = true := by
  refine ⟨⟨?_, ?_, ?_, ?_, trivial⟩, ⟨?_, ?_, ?_⟩, ?_, ?_⟩ <;>
    simp [startSteps, runLifeSteps, runCheck, lifeStep, initState, cleanConn,
      AtMostOne, GoodState]

theorem run_recon_manual {P : Type} :
    ∀ (cs : List (SyncCall P)) (s : SyncState P),
      (∀ c ∈ cs, isReconOrManual c = true) →
      GoodState s → s.provider.isSome = true → s.syncParams.isSome = true →
      runCheckCalls false AtMostOne cs s := by
  intro cs
  induction cs with
  | nil => intro s _ _ _ _; trivial
  | cons c cs ih =>
    intro s hall h hp hsp
    have hc := hall c (by simp)
    have hrest : ∀ c2 ∈ cs, isReconOrManual c2 = true :=
      fun c2 h2 => hall c2 (by simp [h2])
    cases c with
    | start p => simp [isReconOrManual] at hc
    | recon p =>
      have hr := recon_check p s h hp
      exact ⟨hr.1, ih _ hrest hr.2.1 hr.2.2.1 (by rw [hr.2.2.2]; exact hsp)⟩
    | manual =>
      obtain ⟨q, hq⟩ := Option.isSome_iff_exists.mp hsp
      have hr := recon_check q s h hp
      simp only [runCheckCalls, callSteps, hq, Option.map_some]
      exact ⟨hr.1, ih _ hrest hr.2.1 hr.2.2.1 (by rw [hr.2.2.2]; exact hsp)⟩

/-- C1 (amended): in a production build, for every sequential call sequence
consisting of one initial `startDataSync` followed by any number of
`reconnect` / `manualSync` calls, after every atomic lifecycle step at most
one provider and at most one document are live — each new provider/document
pair is constructed only after the previous pair has been torn down and no
provider is leaked.  (The unrestricted claim is false: a repeated
production-mode `startDataSync` leaks the previous pair, see the
counterexample, and nothing guards concurrently-interleaved reconnects.) -/
theorem c1_single_active_session_amended {P : Type} (p0 : P)
    (rest : List (SyncCall P))
    (h : ∀ c ∈ rest, isReconOrManual c = true) :
    runCheckCalls false AtMostOne (SyncCall.start p0 :: rest) initState := by
  have h0 := start_check_init (P := P) p0
  exact ⟨h0.1, run_recon_manual rest _ h h0.2.1 h0.2.2.1 h0.2.2.2⟩

/-- C1 witness: the sequence start, reconnect, manualSync keeps at most one
provider and one document live at every step. -/
theorem c1_single_active_session_witness :
    (∀ c ∈ ([SyncCall.recon 1, SyncCall.manual] : List (SyncCall Nat)),
      isReconOrManual c = true) ∧
    runCheckCalls false AtMostOne
      [SyncCall.start 0, SyncCall.recon 1, SyncCall.manual] initState :=
  ⟨by decide,
    c1_single_active_session_amended 0 [SyncCall.recon 1, SyncCall.manual]
      (by decide)⟩

end LobeSync
